import Mathlib

/-!
# Verification of the noise-cancellation pipeline (`noise.py`)

Shallow embedding of the `NoiseReducer` class from `src/noise.py`.

Audio samples are modelled as real numbers (the source operates on
`float32`/`float64`; we model the arithmetic exactly), spectra as complex
numbers.  Durations are modelled as rationals.  Real-time behaviour (the
`duration + 0.5s` wall-clock deadline, stream timing) is not modelled
directly: instead, each blocking run takes as an argument the list of
chunks the device made available before the deadline.
-/

/-- The `mode` argument of `NoiseReducer.__init__` (noise.py line 15):
either `'single_speaker'` or `'multiple_speakers'`. -/
inductive Mode
  | single_speaker
  | multiple_speakers
deriving DecidableEq

/-- The mutable state of a `NoiseReducer` object (noise.py lines 24-45).
The pyaudio handle and the stream objects are external resources and are
not part of the state; `audio_queue` models `queue.Queue` contents as a
FIFO list, `output_frames` the list of processed chunks. -/
structure NoiseReducer where
  mode : Mode
  chunk_size : ℕ
  sample_rate : ℕ
  audio_queue : List (List ℝ)
  output_frames : List (List ℝ)
  noise_profile : Option (List ℝ)
  is_calibrating : Bool
  recording : Bool
  b : List ℝ
  a : List ℝ

/-- `NoiseReducer.__init__` (noise.py lines 15-45).  The filter
coefficients come from `scipy.signal.butter(4, [300/nyquist, 3400/nyquist],
btype='band')` with `nyquist = sample_rate/2`; `scipy` is an external
library, so the designed coefficient pair is modelled as an arbitrary
function `design` of the sample rate — the only non-constant datum the
source passes to `butter`. -/
def NoiseReducer.init (mode : Mode) (chunk_size sample_rate : ℕ)
    (design : ℕ → List ℝ × List ℝ) : NoiseReducer :=
  { mode := mode
    chunk_size := chunk_size
    sample_rate := sample_rate
    audio_queue := []
    output_frames := []
    noise_profile := none
    is_calibrating := false
    recording := false
    b := (design sample_rate).1
    a := (design sample_rate).2 }

/-- Python `int()` applied to a rational value: truncation toward zero.
Embeds the `int(...)` conversion on noise.py line 95. -/
def int_of_rat (q : ℚ) : ℤ :=
  if 0 ≤ q then ⌊q⌋ else ⌈q⌉

/-- `chunks_needed = int(duration * self.sample_rate / self.chunk_size)`
(noise.py line 95).  `Int.toNat` reflects that a nonpositive count makes
the collection loop body never run. -/
def chunks_needed (duration : ℚ) (sample_rate chunk_size : ℕ) : ℕ :=
  (int_of_rat (duration * sample_rate / chunk_size)).toNat

/-- The collection loop of `calibrate_noise` (noise.py lines 109-114),
absent the wall-clock deadline: it pops chunks from the queue while fewer
than `needed` have been collected, stopping when the supply `avail` (the
chunks the device delivered in time) is exhausted. -/
def collect_loop : ℕ → List (List ℝ) → List (List ℝ)
  | 0, _ => []
  | _ + 1, [] => []
  | n + 1, c :: rest => c :: collect_loop n rest

/-- `np.mean(np.vstack(noise_chunks), axis=0)` (noise.py line 120):
element-wise arithmetic mean of a non-empty stack of equal-length rows.
On the empty list `np.vstack` raises; we return `[]` (the branch is
unreachable in the source, guarded by `if noise_chunks:`). -/
noncomputable def np_mean0 : List (List ℝ) → List ℝ
  | [] => []
  | c :: rest =>
    (List.range c.length).map fun i =>
      (((c :: rest).map fun ch => ch.getD i 0).sum) / (((c :: rest).length : ℝ))

/-- The tail of `calibrate_noise` (noise.py lines 119-125): if at least one
chunk was collected, replace the stored noise profile by the element-wise
mean; in either case reset `is_calibrating`.  The `else` branch only logs
a warning. -/
noncomputable def calibrate_update (s : NoiseReducer) (noise_chunks : List (List ℝ)) :
    NoiseReducer :=
  match noise_chunks with
  | [] => { s with is_calibrating := false }
  | c :: rest =>
    { s with noise_profile := some (np_mean0 (c :: rest)), is_calibrating := false }

/-- `calibrate_noise(duration)` (noise.py lines 88-125) as a state
transformer: set `is_calibrating`, clear the queue, collect up to
`chunks_needed` chunks from the supply `avail` the device delivered before
the deadline, then update the profile and reset the flag. -/
noncomputable def calibrate_noise (s : NoiseReducer) (duration : ℚ)
    (avail : List (List ℝ)) : NoiseReducer :=
  let s1 := { s with is_calibrating := true, audio_queue := [] }
  calibrate_update s1 (collect_loop (chunks_needed duration s.sample_rate s.chunk_size) avail)

/-- The error taxonomy named by the specification.  None of these is ever
raised or returned by the source: `noise.py` contains no `raise` statement
and `calibrate_noise` has no `return` statement. -/
inductive PyErr
  | CalibrationFailed
  | SessionBusyError
  | NoFramesCaptured
deriving DecidableEq

/-- The outcome of a call to `calibrate_noise` as seen by its caller.  The
source body contains no `raise` and no `return`, so the call always falls
off the end: it returns Python `None` and never an error value. -/
noncomputable def calibrate_noise_result (s : NoiseReducer) (duration : ℚ)
    (avail : List (List ℝ)) : Except PyErr NoiseReducer :=
  Except.ok (calibrate_noise s duration avail)

/-- The entry of `record` (noise.py lines 130-131): unconditionally set
`recording` and clear the accumulator.  The source performs no check of
`is_calibrating` before doing so. -/
def record_begin (s : NoiseReducer) : NoiseReducer :=
  { s with recording := true, output_frames := [] }

/-- Outcome of entering `record`: the lines 127-131 contain no
state-dependent `raise`, so entry always succeeds. -/
def record_begin_result (s : NoiseReducer) : Except PyErr NoiseReducer :=
  Except.ok (record_begin s)

/-- The entry of `calibrate_noise` (noise.py lines 91-92): unconditionally
set `is_calibrating` and clear the queue.  The source performs no check of
`recording` before doing so. -/
def calibrate_begin (s : NoiseReducer) : NoiseReducer :=
  { s with is_calibrating := true, audio_queue := [] }

/-- Outcome of entering `calibrate_noise`: lines 88-92 contain no
state-dependent `raise`, so entry always succeeds. -/
def calibrate_begin_result (s : NoiseReducer) : Except PyErr NoiseReducer :=
  Except.ok (calibrate_begin s)

/-- A concrete reducer state matching `NoiseReducer()` defaults
(noise.py line 15), with a stand-in coefficient design. -/
noncomputable def initState : NoiseReducer :=
  NoiseReducer.init Mode.single_speaker 2048 44100 (fun _ => ([1], [1]))

/-- `true` exactly when a call's outcome is a raised error. -/
def raisedException : Except PyErr NoiseReducer → Bool
  | Except.error _ => true
  | Except.ok _ => false

/-- A state whose parameters make one chunk suffice for calibration
(sample_rate = chunk_size = 1). -/
noncomputable def smallState : NoiseReducer :=
  NoiseReducer.init Mode.single_speaker 1 1 (fun _ => ([1], [1]))

/-- A reducer state in the middle of a calibration run. -/
noncomputable def busyCalibratingState : NoiseReducer :=
  { initState with is_calibrating := true }

/-- A reducer state in the middle of a recording run. -/
noncomputable def busyRecordingState : NoiseReducer :=
  { initState with recording := true }

-- Helper lemmas about the collection loop.

/-- The collection loop takes the first `needed` available chunks. -/
theorem collect_loop_eq_take (needed : ℕ) (avail : List (List ℝ)) :
    collect_loop needed avail = avail.take needed := by
  induction needed generalizing avail with
  | zero => cases avail <;> rfl
  | succ n ih =>
    cases avail with
    | nil => rfl
    | cons c rest => simp [collect_loop, ih]

/-- The collection loop collects nothing from an empty supply. -/
theorem collect_loop_nil (needed : ℕ) : collect_loop needed [] = [] := by
  cases needed <;> rfl

/-- Reading back the `i`-th entry for every index reassembles the list. -/
theorem map_getD_range (l : List ℝ) :
    (List.range l.length).map (fun i => l.getD i 0) = l := by
  apply List.ext_getElem
  · simp
  · intro i h1 h2
    simp [List.getD_eq_getElem, h2]

/-- The element-wise mean of `n` identical rows is the row itself. -/
theorem np_mean0_replicate (n : ℕ) (C : List ℝ) (hn : 0 < n) :
    np_mean0 (List.replicate n C) = C := by
  cases n with
  | zero => exact absurd hn (lt_irrefl 0)
  | succ m =>
    rw [List.replicate_succ]
    show (List.range C.length).map (fun i =>
        (((C :: List.replicate m C).map fun ch => ch.getD i 0).sum) /
          (((C :: List.replicate m C).length : ℝ))) = C
    have hrow : ∀ i : ℕ,
        ((C :: List.replicate m C).map fun ch => ch.getD i 0)
          = List.replicate (m + 1) (C.getD i 0) := by
      intro i
      rw [← List.replicate_succ, List.map_replicate]
    have hlen : ((C :: List.replicate m C).length : ℝ) = (m + 1 : ℝ) := by
      simp
    have hmean : ∀ i : ℕ,
        (((C :: List.replicate m C).map fun ch => ch.getD i 0).sum) /
          (((C :: List.replicate m C).length : ℝ)) = C.getD i 0 := by
      intro i
      rw [hrow i, hlen, List.sum_replicate, nsmul_eq_mul]
      push_cast
      have hne : ((m : ℝ) + 1) ≠ 0 := by positivity
      rw [mul_div_cancel_left₀ _ hne]
    calc (List.range C.length).map (fun i =>
            (((C :: List.replicate m C).map fun ch => ch.getD i 0).sum) /
              (((C :: List.replicate m C).length : ℝ)))
        = (List.range C.length).map (fun i => C.getD i 0) := by
          exact List.map_congr_left (fun i _ => hmean i)
      _ = C := map_getD_range C

-- Claim C1 (corrected).

/-- C1 counterexample: at `duration = 2.0`, `sample_rate = 44100`,
`chunk_size = 2048` (the source defaults), the calibrator stops after
`int(2 * 44100 / 2048) = 43` chunks, not `ceil(2 * 44100 / 2048) = 44`
as the claim states. -/
theorem chunks_collected_ne_ceil :
    (collect_loop (chunks_needed 2 44100 2048) (List.replicate 44 [(0 : ℝ)])).length = 43
      ∧ ⌈(2 * (44100 : ℚ) / 2048)⌉ = 44 ∧ (43 : ℕ) ≠ 44 := by
  have hc : chunks_needed 2 44100 2048 = 43 := by
    norm_num [chunks_needed, int_of_rat, Int.floor_eq_iff]
    rfl
  refine ⟨?_, ?_, by norm_num⟩
  · rw [collect_loop_eq_take, hc, List.length_take, List.length_replicate]
    norm_num
  · norm_num [Int.ceil_eq_iff]

/-- C1 amended: absent a deadline, a calibration run with nonnegative
duration `d`, sample rate `R` and chunk size `S` collects exactly
`int(d * R / S)` chunks — the floor (truncation toward zero) of
`d * R / S`, not its ceiling — provided the device supplies at least that
many chunks. -/
theorem chunks_collected_eq_floor (d : ℚ) (R S : ℕ) (avail : List (List ℝ))
    (hd : 0 ≤ d) (h : chunks_needed d R S ≤ avail.length) :
    (collect_loop (chunks_needed d R S) avail).length = (⌊d * (R : ℚ) / (S : ℚ)⌋).toNat := by
  have hkey : chunks_needed d R S = (⌊d * (R : ℚ) / (S : ℚ)⌋).toNat := by
    have h0 : (0 : ℚ) ≤ d * (R : ℚ) / (S : ℚ) :=
      div_nonneg (mul_nonneg hd (Nat.cast_nonneg R)) (Nat.cast_nonneg S)
    unfold chunks_needed int_of_rat
    rw [if_pos h0]
  rw [collect_loop_eq_take, List.length_take, hkey]
  rw [hkey] at h
  omega

/-- C1 witness for the amended theorem at the source defaults. -/
theorem chunks_collected_eq_floor_witness :
    ((0 : ℚ) ≤ 2 ∧ chunks_needed 2 44100 2048 ≤ (List.replicate 43 [(0 : ℝ)]).length)
      ∧ (collect_loop (chunks_needed 2 44100 2048) (List.replicate 43 [(0 : ℝ)])).length
          = (⌊(2 : ℚ) * (44100 : ℚ) / (2048 : ℚ)⌋).toNat := by
  have hc : chunks_needed 2 44100 2048 = 43 := by
    norm_num [chunks_needed, int_of_rat, Int.floor_eq_iff]
    rfl
  have hle : chunks_needed 2 44100 2048 ≤ (List.replicate 43 [(0 : ℝ)]).length := by
    rw [hc, List.length_replicate]
  exact ⟨⟨by norm_num, hle⟩,
    chunks_collected_eq_floor 2 44100 2048 (List.replicate 43 [(0 : ℝ)]) (by norm_num) hle⟩

-- Claim C2 (corrected).

/-- C2 counterexample: a calibration run in which zero chunks arrive
raises no error and returns no value — the call's outcome is `ok` (Python
`None`), never a `CalibrationFailed` error value. -/
theorem calibrate_no_chunks_not_failed :
    collect_loop (chunks_needed 2 initState.sample_rate initState.chunk_size) [] = []
      ∧ raisedException (calibrate_noise_result initState 2 []) = false
      ∧ calibrate_noise_result initState 2 [] = Except.ok (calibrate_noise initState 2 []) := by
  exact ⟨collect_loop_nil _, rfl, rfl⟩

/-- C2 amended: a calibration run that collects zero chunks before the
deadline completes normally — it only logs a warning; no
`CalibrationFailed` error value is raised or returned, the stored noise
profile is untouched and `is_calibrating` is reset. -/
theorem calibrate_no_chunks_returns_normally (s : NoiseReducer) (duration : ℚ)
    (avail : List (List ℝ))
    (h : collect_loop (chunks_needed duration s.sample_rate s.chunk_size) avail = []) :
    raisedException (calibrate_noise_result s duration avail) = false
      ∧ (calibrate_noise s duration avail).noise_profile = s.noise_profile
      ∧ (calibrate_noise s duration avail).is_calibrating = false := by
  refine ⟨rfl, ?_, ?_⟩ <;>
    · unfold calibrate_noise
      rw [h]
      rfl

/-- C2 witness: the amended theorem applied to a run with an empty
supply. -/
theorem calibrate_no_chunks_returns_normally_witness :
    (collect_loop (chunks_needed 3 initState.sample_rate initState.chunk_size) [] = [])
      ∧ (raisedException (calibrate_noise_result initState 3 []) = false
          ∧ (calibrate_noise initState 3 []).noise_profile = initState.noise_profile
          ∧ (calibrate_noise initState 3 []).is_calibrating = false) :=
  ⟨collect_loop_nil _,
    calibrate_no_chunks_returns_normally initState 3 [] (collect_loop_nil _)⟩

-- Claim C3 (corrected).

/-- C3 counterexample: with a calibration active, entering `record`
raises nothing and starts the second session anyway (`recording` becomes
`true` while `is_calibrating` is still `true`); symmetrically for
entering `calibrate_noise` while recording.  No `SessionBusyError`
exists anywhere in the source. -/
theorem session_entry_during_other_session_succeeds :
    busyCalibratingState.is_calibrating = true
      ∧ (record_begin busyCalibratingState).recording = true
      ∧ (record_begin busyCalibratingState).is_calibrating = true
      ∧ raisedException (record_begin_result busyCalibratingState) = false
      ∧ busyRecordingState.recording = true
      ∧ (calibrate_begin busyRecordingState).is_calibrating = true
      ∧ (calibrate_begin busyRecordingState).recording = true
      ∧ raisedException (calibrate_begin_result busyRecordingState) = false :=
  ⟨rfl, rfl, rfl, rfl, rfl, rfl, rfl, rfl⟩

/-- C3 amended: the source performs no concurrency guard.  Entering
`record` while a calibration is active succeeds without any error and
starts the recording session (both activity flags are then set), and
entering `calibrate_noise` while a recording is active likewise succeeds
and starts the calibration session. -/
theorem session_entry_unguarded (s t : NoiseReducer)
    (hs : s.is_calibrating = true) (ht : t.recording = true) :
    ((record_begin s).recording = true ∧ (record_begin s).is_calibrating = true
        ∧ raisedException (record_begin_result s) = false)
      ∧ ((calibrate_begin t).is_calibrating = true ∧ (calibrate_begin t).recording = true
          ∧ raisedException (calibrate_begin_result t) = false) := by
  refine ⟨⟨rfl, ?_, rfl⟩, ⟨rfl, ?_, rfl⟩⟩
  · show s.is_calibrating = true
    exact hs
  · show t.recording = true
    exact ht

/-- C3 witness for the amended theorem at concrete busy states. -/
theorem session_entry_unguarded_witness :
    (busyCalibratingState.is_calibrating = true ∧ busyRecordingState.recording = true)
      ∧ (((record_begin busyCalibratingState).recording = true
            ∧ (record_begin busyCalibratingState).is_calibrating = true
            ∧ raisedException (record_begin_result busyCalibratingState) = false)
          ∧ ((calibrate_begin busyRecordingState).is_calibrating = true
              ∧ (calibrate_begin busyRecordingState).recording = true
              ∧ raisedException (calibrate_begin_result busyRecordingState) = false)) :=
  ⟨⟨rfl, rfl⟩, session_entry_unguarded busyCalibratingState busyRecordingState rfl rfl⟩

-- Claim C7 (confirmed).

/-- C7: a calibration run that collects exactly `n > 0` chunks, all equal
to `C`, stores the noise profile `C`: the element-wise mean of identical
chunks is the chunk itself. -/
theorem calibrate_identical_chunks_profile (s : NoiseReducer) (duration : ℚ)
    (avail : List (List ℝ)) (C : List ℝ) (n : ℕ) (hn : 0 < n)
    (h : collect_loop (chunks_needed duration s.sample_rate s.chunk_size) avail
        = List.replicate n C) :
    (calibrate_noise s duration avail).noise_profile = some C := by
  unfold calibrate_noise
  rw [h]
  cases n with
  | zero => exact absurd hn (lt_irrefl 0)
  | succ m =>
    rw [List.replicate_succ]
    show some (np_mean0 (C :: List.replicate m C)) = some C
    rw [← List.replicate_succ, np_mean0_replicate (m + 1) C (Nat.succ_pos m)]

/-- C7 witness: one chunk `[0]` collected on a reducer whose parameters
need exactly one chunk. -/
theorem calibrate_identical_chunks_profile_witness :
    (0 < 1
      ∧ collect_loop (chunks_needed 1 smallState.sample_rate smallState.chunk_size) [[(0 : ℝ)]]
          = List.replicate 1 [(0 : ℝ)])
      ∧ (calibrate_noise smallState 1 [[(0 : ℝ)]]).noise_profile = some [(0 : ℝ)] := by
  have hc : chunks_needed 1 smallState.sample_rate smallState.chunk_size = 1 := by
    norm_num [smallState, NoiseReducer.init, chunks_needed, int_of_rat, Int.floor_eq_iff]
  have h : collect_loop (chunks_needed 1 smallState.sample_rate smallState.chunk_size)
      [[(0 : ℝ)]] = List.replicate 1 [(0 : ℝ)] := by
    rw [hc]
    rfl
  exact ⟨⟨Nat.one_pos, h⟩,
    calibrate_identical_chunks_profile smallState 1 [[(0 : ℝ)]] [(0 : ℝ)] 1 Nat.one_pos h⟩

-- Claim C9 (confirmed).

/-- C9: a calibration run that collects zero chunks leaves the stored
noise profile exactly as it was — a profile from an earlier successful
calibration persists on the failure path (and the calibrating flag is
reset). -/
theorem calibrate_failure_preserves_profile (s : NoiseReducer) (duration : ℚ)
    (avail : List (List ℝ))
    (h : collect_loop (chunks_needed duration s.sample_rate s.chunk_size) avail = []) :
    (calibrate_noise s duration avail).noise_profile = s.noise_profile
      ∧ (calibrate_noise s duration avail).is_calibrating = false := by
  constructor <;>
    · unfold calibrate_noise
      rw [h]
      rfl

/-- C9 witness: a state that already holds a profile keeps it when the
next calibration collects nothing. -/
theorem calibrate_failure_preserves_profile_witness :
    (collect_loop
        (chunks_needed 2 ({ initState with noise_profile := some [(1 : ℝ)] }).sample_rate
          ({ initState with noise_profile := some [(1 : ℝ)] }).chunk_size) [] = [])
      ∧ ((calibrate_noise { initState with noise_profile := some [(1 : ℝ)] } 2 []).noise_profile
            = ({ initState with noise_profile := some [(1 : ℝ)] }).noise_profile
          ∧ (calibrate_noise { initState with noise_profile := some [(1 : ℝ)] } 2
              []).is_calibrating = false) :=
  ⟨collect_loop_nil _,
    calibrate_failure_preserves_profile { initState with noise_profile := some [(1 : ℝ)] } 2 []
      (collect_loop_nil _)⟩

-- The per-chunk signal path (noise.py lines 65-86) and recording
-- finalization (lines 151-156), modelled in exact real/complex arithmetic.

/-- One sample of `np.clip(filtered, -1, 1)` (noise.py line 86):
`np.clip(x, lo, hi)` computes `min(max(x, lo), hi)`. -/
noncomputable def clip1 (x : ℝ) : ℝ :=
  min (max x (-1)) 1

/-- The next output sample of `scipy.signal.lfilter(b, a, x)` given the
already-produced outputs `ys` (a direct-form IIR filter with zero initial
state):
`y[n] = (1/a[0]) * (sum_i b[i]*x[n-i] - sum_(j>=1) a[j]*y[n-j])`,
with out-of-range (negative-index) samples read as 0. -/
noncomputable def lfilter_next (b a x ys : List ℝ) : ℝ :=
  (1 / a.getD 0 0) *
    (((List.range b.length).map fun i =>
        b.getD i 0 * (if i ≤ ys.length then x.getD (ys.length - i) 0 else 0)).sum
      - ((List.range (a.length - 1)).map fun j =>
          a.getD (j + 1) 0 *
            (if j + 1 ≤ ys.length then ys.getD (ys.length - (j + 1)) 0 else 0)).sum)

/-- `scipy.signal.lfilter(b, a, x)` (noise.py line 68): the output has one
sample per input sample, produced left to right by `lfilter_next`. -/
noncomputable def lfilter (b a x : List ℝ) : List ℝ :=
  (List.range x.length).foldl (fun ys _ => ys ++ [lfilter_next b a x ys]) []

/-- `np.fft.rfft` (noise.py lines 72-73): the half spectrum of a real
input of length `N`, with `N/2 + 1` bins,
`X[k] = sum_n x[n] * exp(-2*pi*I*k*n/N)`. -/
noncomputable def rfft (x : List ℝ) : List ℂ :=
  (List.range (x.length / 2 + 1)).map fun (k : ℕ) =>
    ((List.range x.length).map fun (n : ℕ) =>
      ((x.getD n 0 : ℝ) : ℂ) *
        Complex.exp (-(2 * (Real.pi : ℂ) * Complex.I * (k : ℂ) * (n : ℂ)) / (x.length : ℂ))).sum

/-- `np.fft.irfft` with its default output length (noise.py line 84): a
half spectrum of `B` bins is extended to a Hermitian full spectrum of
length `n = 2*(B-1)` and inverse-transformed,
`x[m] = (1/n) * Re(sum_k S[k] * exp(2*pi*I*k*m/n))` with
`S[k] = spec[k]` for `k <= n/2` and `S[k] = conj(spec[n-k])` otherwise. -/
noncomputable def irfft (spec : List ℂ) : List ℝ :=
  (List.range (2 * (spec.length - 1))).map fun (m : ℕ) =>
    (((List.range (2 * (spec.length - 1))).map fun (k : ℕ) =>
        (if k ≤ (2 * (spec.length - 1)) / 2 then spec.getD k 0
          else (starRingEnd ℂ) (spec.getD (2 * (spec.length - 1) - k) 0)) *
          Complex.exp
            (2 * (Real.pi : ℂ) * Complex.I * (k : ℂ) * (m : ℂ)
              / ((2 * (spec.length - 1) : ℕ) : ℂ))).sum).re
      / ((2 * (spec.length - 1) : ℕ) : ℝ)

/-- The spectral-subtraction core of `process_chunk` (noise.py lines
72-83): magnitude spectra of the filtered chunk and of the noise profile,
element-wise floor-at-zero subtraction, and reconstruction with the
filtered chunk's phase: `clean_mag * exp(I * angle(chunk_spec))`. -/
noncomputable def spectral_subtract (filtered noise_profile : List ℝ) : List ℂ :=
  List.zipWith (fun (m : ℝ) (z : ℂ) => (m : ℂ) * Complex.exp (Complex.I * (z.arg : ℂ)))
    (List.zipWith (fun c n => max (c - n) 0)
      ((rfft filtered).map fun z => Complex.abs z)
      ((rfft noise_profile).map fun z => Complex.abs z))
    (rfft filtered)

/-- `process_chunk` (noise.py lines 65-86): bandpass-filter the chunk; if
a noise profile is stored, spectrally subtract it and inverse-transform;
finally clip every sample to `[-1, 1]`. -/
noncomputable def NoiseReducer.process_chunk (s : NoiseReducer) (chunk : List ℝ) : List ℝ :=
  match s.noise_profile with
  | none => (lfilter s.b s.a chunk).map clip1
  | some prof => (irfft (spectral_subtract (lfilter s.b s.a chunk) prof)).map clip1

/-- The stream callback (noise.py lines 47-63): when recording, process
the chunk inline and append it to the accumulator; otherwise, when
calibrating, push the raw chunk onto the queue; in the idle state do
nothing. -/
noncomputable def NoiseReducer.callback (s : NoiseReducer) (in_data : List ℝ) : NoiseReducer :=
  if s.recording || s.is_calibrating then
    if s.recording then
      { s with output_frames := s.output_frames ++ [s.process_chunk in_data] }
    else
      { s with audio_queue := s.audio_queue ++ [in_data] }
  else s

/-- `(audio_data * 32767).astype(np.int16)` for one sample (noise.py line
156): the float value `x * 32767` is cast to an integer, which truncates
toward zero.  (The cast wraps rather than saturates when out of the int16
range, but every sample handed to it has been clipped to `[-1, 1]`, so
the value is always within range; the wrap is therefore not modelled.) -/
noncomputable def astype_int16 (x : ℝ) : ℤ :=
  if 0 ≤ x * 32767 then ⌊x * 32767⌋ else ⌈x * 32767⌉

/-- The finalization of `record` (noise.py lines 151-156):
`np.concatenate(output_frames)` followed by the per-sample int16
conversion. -/
noncomputable def finalize_int16 (output_frames : List (List ℝ)) : List ℤ :=
  output_frames.flatten.map astype_int16

-- Length and range lemmas for the signal path.

/-- `lfilter` produces one output sample per input sample. -/
theorem lfilter_length (b a x : List ℝ) : (lfilter b a x).length = x.length := by
  suffices h : ∀ (m : ℕ) (init : List ℝ),
      ((List.range m).foldl (fun ys _ => ys ++ [lfilter_next b a x ys]) init).length
        = init.length + m by
    simpa using h x.length []
  intro m
  induction m with
  | zero => intro init; rfl
  | succ n ih =>
    intro init
    rw [List.range_succ, List.foldl_append]
    simp only [List.foldl_cons, List.foldl_nil, List.length_append, List.length_cons,
      List.length_nil, ih]
    omega

/-- `np.fft.rfft` of a length-`N` input has `N/2 + 1` bins. -/
theorem rfft_length (x : List ℝ) : (rfft x).length = x.length / 2 + 1 := by
  unfold rfft
  rw [List.length_map, List.length_range]

/-- `np.fft.irfft` of a `B`-bin half spectrum has the default output
length `2*(B-1)`. -/
theorem irfft_length (spec : List ℂ) : (irfft spec).length = 2 * (spec.length - 1) := by
  unfold irfft
  rw [List.length_map, List.length_range]

/-- The spectral-subtraction output has one bin per common input bin. -/
theorem spectral_subtract_length (f p : List ℝ) :
    (spectral_subtract f p).length = min (f.length / 2 + 1) (p.length / 2 + 1) := by
  simp only [spectral_subtract, List.length_zipWith, List.length_map, rfft_length]
  omega

/-- Every clipped sample lies in `[-1, 1]`. -/
theorem clip1_mem (x : ℝ) : -1 ≤ clip1 x ∧ clip1 x ≤ 1 := by
  unfold clip1
  exact ⟨le_min (le_max_right x (-1)) (by norm_num), min_le_right _ _⟩

-- Claim C6 (confirmed).

/-- C6: with no noise profile stored, `process_chunk` returns exactly the
clipped bandpass-filtered chunk; it has the same length as the input and
every sample lies in `[-1, 1]`. -/
theorem process_chunk_no_profile (s : NoiseReducer) (chunk : List ℝ)
    (h : s.noise_profile = none) :
    s.process_chunk chunk = (lfilter s.b s.a chunk).map clip1
      ∧ (s.process_chunk chunk).length = chunk.length
      ∧ ∀ x ∈ s.process_chunk chunk, -1 ≤ x ∧ x ≤ 1 := by
  have he : s.process_chunk chunk = (lfilter s.b s.a chunk).map clip1 := by
    unfold NoiseReducer.process_chunk
    rw [h]
  refine ⟨he, ?_, ?_⟩
  · rw [he, List.length_map, lfilter_length]
  · intro x hx
    rw [he] at hx
    obtain ⟨y, _, rfl⟩ := List.mem_map.mp hx
    exact clip1_mem y

/-- C6 witness: the freshly initialized reducer has no profile; the
theorem applies to the chunk `[0]`. -/
theorem process_chunk_no_profile_witness :
    initState.noise_profile = none
      ∧ (initState.process_chunk [(0 : ℝ)]
            = (lfilter initState.b initState.a [(0 : ℝ)]).map clip1
          ∧ (initState.process_chunk [(0 : ℝ)]).length = [(0 : ℝ)].length
          ∧ ∀ x ∈ initState.process_chunk [(0 : ℝ)], -1 ≤ x ∧ x ≤ 1) :=
  ⟨rfl, process_chunk_no_profile initState [(0 : ℝ)] rfl⟩

-- Claim C10 (confirmed).

/-- C10: with a noise profile stored (of the chunk's length), the output
of `process_chunk` has length `2 * (length/2)`: one less than the input
for odd-length chunks — `np.fft.irfft` reconstructs the default even
length `2*(bins-1)` — and exactly the input length for even-length
chunks. -/
theorem process_chunk_profile_length (s : NoiseReducer) (chunk prof : List ℝ)
    (hs : s.noise_profile = some prof) (h : prof.length = chunk.length) :
    (Odd chunk.length → (s.process_chunk chunk).length = chunk.length - 1)
      ∧ (Even chunk.length → (s.process_chunk chunk).length = chunk.length) := by
  have hlen : (s.process_chunk chunk).length = 2 * (chunk.length / 2) := by
    unfold NoiseReducer.process_chunk
    rw [hs]
    simp only [List.length_map, irfft_length, spectral_subtract_length, lfilter_length, h]
    omega
  constructor <;> rintro ⟨t, ht⟩ <;> rw [hlen] <;> omega

/-- C10 witness: an odd-length chunk `[0,0,0]` with a matching profile
yields an output of length 2. -/
theorem process_chunk_profile_length_witness :
    ({ initState with noise_profile := some [(0 : ℝ), 0, 0] }.noise_profile
          = some [(0 : ℝ), 0, 0]
      ∧ ([(0 : ℝ), 0, 0] : List ℝ).length = ([(0 : ℝ), 0, 0] : List ℝ).length
      ∧ Odd ([(0 : ℝ), 0, 0] : List ℝ).length)
    ∧ ({ initState with noise_profile := some [(0 : ℝ), 0, 0] }.process_chunk
        [(0 : ℝ), 0, 0]).length = 2 :=
  ⟨⟨rfl, rfl, ⟨1, by norm_num⟩⟩,
    (process_chunk_profile_length { initState with noise_profile := some [(0 : ℝ), 0, 0] }
      [(0 : ℝ), 0, 0] [(0 : ℝ), 0, 0] rfl rfl).1 ⟨1, by norm_num⟩⟩

-- Claim C8 (confirmed).

/-- C8: two reducers built identically except for the `mode` argument —
same chunk size, sample rate, designed coefficients and stored noise
profile — denoise every chunk identically: `mode` is read nowhere in the
processing path. -/
theorem process_chunk_mode_invariant (design : ℕ → List ℝ × List ℝ)
    (m1 m2 : Mode) (cs sr : ℕ) (prof : Option (List ℝ)) (chunk : List ℝ) :
    ({ NoiseReducer.init m1 cs sr design with noise_profile := prof }).process_chunk chunk
      = ({ NoiseReducer.init m2 cs sr design with
            noise_profile := prof }).process_chunk chunk := by
  cases prof <;> rfl

-- Claim C4 (corrected).

/-- C4 counterexample: the sample `0.5` (in `[-1, 1]`) is converted to
`16383`, the truncation of `0.5 * 32767 = 16383.5`, whereas
`round(0.5 * 32767) = 16384`: the conversion truncates, it does not
round. -/
theorem int16_conversion_truncates :
    finalize_int16 [[(1 / 2 : ℝ)]] = [16383]
      ∧ round ((1 / 2 : ℝ) * 32767) = 16384 ∧ (16383 : ℤ) ≠ 16384 := by
  refine ⟨?_, ?_, by norm_num⟩
  · show [astype_int16 (1 / 2 : ℝ)] = [16383]
    have h : astype_int16 (1 / 2 : ℝ) = ⌊(1 / 2 : ℝ) * 32767⌋ := if_pos (by norm_num)
    rw [h]
    norm_num [Int.floor_eq_iff]
  · rw [round_eq]
    norm_num [Int.floor_eq_iff]

/-- C4 amended: each finalized sample `x` — already clipped to `[-1, 1]`
by `process_chunk` — is converted to a 16-bit integer by truncating
`x * 32767` toward zero (numpy `astype`), not by rounding; the truncated
value always lies in `[-32767, 32767]`, inside the int16 range, so the
dtype boundary is never reached and no saturation occurs. -/
theorem int16_conversion_range (x : ℝ) (h1 : -1 ≤ x) (h2 : x ≤ 1) :
    -32767 ≤ astype_int16 x ∧ astype_int16 x ≤ 32767 := by
  have hub : x * 32767 ≤ ((32767 : ℤ) : ℝ) := by
    have := mul_le_mul_of_nonneg_right h2 (by norm_num : (0 : ℝ) ≤ 32767)
    push_cast
    linarith
  have hlb : ((-32767 : ℤ) : ℝ) ≤ x * 32767 := by
    have := mul_le_mul_of_nonneg_right h1 (by norm_num : (0 : ℝ) ≤ 32767)
    push_cast
    linarith
  unfold astype_int16
  by_cases h0 : 0 ≤ x * 32767
  · rw [if_pos h0]
    constructor
    · have : (0 : ℤ) ≤ ⌊x * 32767⌋ := Int.floor_nonneg.mpr h0
      omega
    · calc ⌊x * 32767⌋ ≤ ⌊((32767 : ℤ) : ℝ)⌋ := Int.floor_mono hub
        _ = 32767 := Int.floor_intCast _
  · rw [if_neg h0]
    constructor
    · calc (-32767 : ℤ) = ⌈((-32767 : ℤ) : ℝ)⌉ := (Int.ceil_intCast _).symm
        _ ≤ ⌈x * 32767⌉ := Int.ceil_mono hlb
    · have : ⌈x * 32767⌉ ≤ 0 := by
        have hx : x * 32767 ≤ ((0 : ℤ) : ℝ) := by push_cast; linarith [lt_of_not_le h0]
        calc ⌈x * 32767⌉ ≤ ⌈((0 : ℤ) : ℝ)⌉ := Int.ceil_mono hx
          _ = 0 := Int.ceil_intCast _
      omega

/-- C4 witness for the amended theorem at `x = 1/2`. -/
theorem int16_conversion_range_witness :
    ((-1 : ℝ) ≤ 1 / 2 ∧ (1 / 2 : ℝ) ≤ 1)
      ∧ (-32767 ≤ astype_int16 (1 / 2 : ℝ) ∧ astype_int16 (1 / 2 : ℝ) ≤ 32767) :=
  ⟨⟨by norm_num, by norm_num⟩, int16_conversion_range (1 / 2) (by norm_num) (by norm_num)⟩

-- Claim C5 (confirmed).

/-- The `k`-th bin of the spectral-subtraction output has magnitude
exactly `max(chunkMag[k] - noiseMag[k], 0)`: reconstruction multiplies the
clamped magnitude with a unit-modulus phase factor. -/
theorem spectral_subtract_abs_getD (f p : List ℝ) (k : ℕ)
    (hk : k < (spectral_subtract f p).length) :
    Complex.abs ((spectral_subtract f p).getD k 0)
      = max (Complex.abs ((rfft f).getD k 0) - Complex.abs ((rfft p).getD k 0)) 0 := by
  have hlen := spectral_subtract_length f p
  have hk1 : k < (rfft f).length := by
    rw [rfft_length]
    omega
  have hk2 : k < (rfft p).length := by
    rw [rfft_length]
    omega
  rw [List.getD_eq_getElem _ _ hk, List.getD_eq_getElem _ _ hk1, List.getD_eq_getElem _ _ hk2]
  simp only [spectral_subtract, List.getElem_zipWith, List.getElem_map]
  rw [map_mul, Complex.abs_ofReal, mul_comm Complex.I _, Complex.abs_exp_ofReal_mul_I,
    mul_one, abs_of_nonneg (le_max_right _ _)]

/-- C5: with a noise profile of the chunk's length, every bin of the
spectral-subtraction output has magnitude at most the filtered chunk's
magnitude at that bin; and with the profile equal to the filtered chunk
itself, every bin's magnitude is at most the unfiltered chunk's magnitude
at that bin (it is in fact zero). -/
theorem spectral_subtraction_no_gain (bc ac chunk prof : List ℝ)
    (h : prof.length = chunk.length) :
    (∀ k, k < (spectral_subtract (lfilter bc ac chunk) prof).length →
        Complex.abs ((spectral_subtract (lfilter bc ac chunk) prof).getD k 0)
          ≤ Complex.abs ((rfft (lfilter bc ac chunk)).getD k 0))
      ∧ (∀ k,
          k < (spectral_subtract (lfilter bc ac chunk) (lfilter bc ac chunk)).length →
          Complex.abs
              ((spectral_subtract (lfilter bc ac chunk) (lfilter bc ac chunk)).getD k 0)
            ≤ Complex.abs ((rfft chunk).getD k 0)) := by
  constructor
  · intro k hk
    rw [spectral_subtract_abs_getD _ _ _ hk]
    exact max_le
      (sub_le_self _ (Complex.abs.nonneg _))
      (Complex.abs.nonneg _)
  · intro k hk
    rw [spectral_subtract_abs_getD _ _ _ hk, sub_self, max_self]
    exact Complex.abs.nonneg _

/-- C5 witness: unit coefficients, the chunk `[0, 0]` and a matching
profile `[0, 0]`. -/
theorem spectral_subtraction_no_gain_witness :
    (([(0 : ℝ), 0] : List ℝ).length = ([(0 : ℝ), 0] : List ℝ).length)
      ∧ ((∀ k, k < (spectral_subtract (lfilter [1] [1] [(0 : ℝ), 0]) [(0 : ℝ), 0]).length →
            Complex.abs ((spectral_subtract (lfilter [1] [1] [(0 : ℝ), 0])
                [(0 : ℝ), 0]).getD k 0)
              ≤ Complex.abs ((rfft (lfilter [1] [1] [(0 : ℝ), 0])).getD k 0))
          ∧ (∀ k, k < (spectral_subtract (lfilter [1] [1] [(0 : ℝ), 0])
                (lfilter [1] [1] [(0 : ℝ), 0])).length →
              Complex.abs ((spectral_subtract (lfilter [1] [1] [(0 : ℝ), 0])
                  (lfilter [1] [1] [(0 : ℝ), 0])).getD k 0)
                ≤ Complex.abs ((rfft [(0 : ℝ), 0]).getD k 0))) :=
  ⟨rfl, spectral_subtraction_no_gain [1] [1] [(0 : ℝ), 0] [(0 : ℝ), 0] rfl⟩
